import Mathlib

/-!
Verification development for the LegalMindAI retrieval-augmented answering
pipeline (`backend/app.py`, `backend/services/chroma_db_handler.py`).

The Python code is shallowly embedded as pure Lean functions.  Effects are
made explicit:

* reading a file either yields its content or fails (`Option String`;
  `none` models the `except` branch that logs and returns `[]` / `{}`);
* the external vector store is a black box, so ingestion functions return
  the exact sequence of store calls they would issue, and query-time
  functions take the store's query result as input;
* the LLM client (`ollama.chat`) is a black box `String → String`
  parameter, and the pipeline functions additionally return the list of
  prompts they sent to it, in order;
* `uuid.uuid4()` draws are modelled by a generator `Nat → String` giving
  the i-th draw;
* `ThreadPoolExecutor.map` returns results in the order of its input
  iterable regardless of completion order (a documented guarantee of the
  Python runtime), so it is embedded as `List.map`;
* CPython `set` iteration order is implementation defined; it is modelled
  as first-occurrence order.  No verified statement depends on that order.

Python string primitives are embedded over `List Char`: `str.strip()` for
ASCII whitespace, `str.split(sep)` as `String.splitOn`, `'sep'.join` as
`pyJoin`, and truthiness of a string / list / dict as nonemptiness.
-/

/-- ASCII whitespace as recognised by Python `str.strip()`
(space, tab, newline, carriage return, vertical tab, form feed). -/
def isPyWS (c : Char) : Bool :=
  c = ' ' || c = '\t' || c = '\n' || c = '\r' || c = Char.ofNat 11 || c = Char.ofNat 12

/-- Python `s.strip()` on the character list. -/
def pyStripL (cs : List Char) : List Char :=
  ((cs.dropWhile isPyWS).reverse.dropWhile isPyWS).reverse

/-- Python `s.strip()`. -/
def pyStrip (s : String) : String :=
  (pyStripL s.toList).asString

/-- Python `sep.join(l)`. -/
def pyJoin (sep : String) : List String → String
  | [] => ""
  | [x] => x
  | x :: y :: xs => x ++ sep ++ pyJoin sep (y :: xs)

/-- A Python dict with string keys and (stringified) scalar values,
in insertion order. -/
def PyDict : Type := List (String × String)

instance : DecidableEq PyDict := by
  unfold PyDict
  infer_instance

/-- Python `d.get(k)` (`None` ↦ `none`). -/
def pyGet (d : PyDict) (k : String) : Option String :=
  (List.find? (fun p => p.1 == k) d).map (fun p => p.2)

/-- Truthiness of a Python value that is `None` or a string:
`None` and `""` are falsy. -/
def pyTruthy : Option String → Bool
  | none => false
  | some s => !s.isEmpty

/-- First-occurrence deduplication; models iterating a CPython `set`
built by insertion (iteration order itself is hash-dependent and
unspecified; it is fixed to first-occurrence order here). -/
def pyDedup (l : List String) : List String :=
  l.foldl (fun acc s => if s ∈ acc then acc else acc ++ [s]) []

/-!  ## Document Loader (`Application._load_text_file`)  -/

/-- `Application._load_text_file`, given the file's content:
`[p.strip() for p in content.split('\n\n') if p.strip()]`.
The comprehension keeps `p.strip()` exactly when it is truthy (nonempty). -/
def load_text_file (content : String) : List String :=
  (content.splitOn "\n\n").filterMap
    (fun p => if (pyStrip p).isEmpty then none else some (pyStrip p))

/-- `Application._load_text_file` including the `try/except`:
an unreadable file (`none`) logs the error and yields `[]`. -/
def load_file : Option String → List String
  | none => []
  | some content => load_text_file content

/-!  ## Vector Store Gateway (`ChromaDBHandler.upsert_documents_with_metadata`)  -/

/-- One `collection.upsert(documents=…, metadatas=…, ids=…)` call. -/
structure Batch where
  documents : List String
  metadatas : List PyDict
  ids : List String
deriving DecidableEq

/-- The batching loop `for i in range(0, len(documents), batch_size)` with
`batch_size = 1000`: one `collection.upsert` per slice of 1000. -/
def batchLoop (docs : List String) (metas : List PyDict) (ids : List String) :
    List Batch :=
  if docs.isEmpty then []
  else
    ⟨docs.take 1000, metas.take 1000, ids.take 1000⟩
      :: batchLoop (docs.drop 1000) (metas.drop 1000) (ids.drop 1000)
termination_by docs.length
decreasing_by
  have hd : docs ≠ [] := by simpa using (by assumption : ¬ docs.isEmpty = true)
  have : 0 < docs.length := List.length_pos.mpr hd
  simp only [List.length_drop]
  omega

/-- `ChromaDBHandler.upsert_documents_with_metadata`, returning the list of
`collection.upsert` calls it issues.  `uuidGen i` is the i-th
`str(uuid.uuid4())` draw; `none` for `metadatas`/`ids` models the Python
default `None`, and an empty provided list is falsy as in `if not ids`. -/
def upsert_documents_with_metadata (uuidGen : Nat → String)
    (documents : List String) (metadatas : Option (List PyDict))
    (ids : Option (List String)) : List Batch :=
  if documents.isEmpty then []
  else
    let ids' : List String :=
      match ids with
      | none => (List.range documents.length).map uuidGen
      | some l => if l.isEmpty then (List.range documents.length).map uuidGen else l
    let metadatas' : List PyDict :=
      match metadatas with
      | none => documents.map (fun _ => [("source", "unknown")])
      | some l => if l.isEmpty then documents.map (fun _ => [("source", "unknown")]) else l
    let min_length := min (min documents.length metadatas'.length) ids'.length
    batchLoop (documents.take min_length) (metadatas'.take min_length) (ids'.take min_length)

/-!  ## Document Loader aggregation and `Application.runSetup`  -/

/-- The parsed Austrian-law JSON bundle (`austrian_laws_chromadb.json`):
top-level arrays `documents`, `metadatas`, `ids`; an absent key is
`data.get(key, [])`, i.e. the empty list. -/
structure AustrianData where
  documents : List String
  metadatas : List PyDict
  ids : List String
deriving DecidableEq

/-- The filesystem state `runSetup` reads: the contents of the `.txt` files
of the resources directory in `os.listdir` order (`none` = unreadable), and
the bundle file (`none` = absent; `some none` = present but unreadable, or
read as a falsy JSON value, so `if austrian_data` fails). -/
structure ResourcesDir where
  txtFiles : List (Option String)
  bundle : Option (Option AustrianData)
deriving DecidableEq

/-- The fixed metadata attached to every text-file paragraph. -/
def textFileMeta : PyDict := [("source", "text_file"), ("type", "paragraph")]

/-- Sequential text-chunk id: `f"txt_{i}"`. -/
def mkTxtId (i : Nat) : String := "txt_" ++ toString i

/-- The `for file_results in results` loop of `runSetup`: extends
`vector_entries`, `metadatas` and `ids`, where the new ids are
`[f"txt_{i}" for i in range(len(ids), len(ids) + len(file_results))]`. -/
def accTextFiles (results : List (List String)) :
    List String × List PyDict × List String :=
  results.foldl
    (fun acc fileResults =>
      (acc.1 ++ fileResults,
       acc.2.1 ++ fileResults.map (fun _ => textFileMeta),
       acc.2.2 ++ (List.range' acc.2.2.length fileResults.length).map mkTxtId))
    ([], [], [])

/-- The chunk-gathering phase of `runSetup`: text files (under the
`if text_files:` guard, read by the thread pool in file-list order), then
the bundle extension under `if os.path.exists(...)`/`if austrian_data:`. -/
def gatherChunks (fs : ResourcesDir) : List String × List PyDict × List String :=
  let textPart :=
    if fs.txtFiles.isEmpty then ([], [], [])
    else accTextFiles (fs.txtFiles.map load_file)
  match fs.bundle with
  | none => textPart
  | some none => textPart
  | some (some d) =>
      (textPart.1 ++ d.documents, textPart.2.1 ++ d.metadatas, textPart.2.2 ++ d.ids)

/-- A call to the vector store issued during setup. -/
inductive StoreCall where
  | getOrCreateCollection (name : String)
  | upsert (b : Batch)
deriving DecidableEq

/-- The observable outcome of `Application.runSetup`. -/
structure SetupResult where
  /-- The user message printed on stdout, if any. -/
  printedMessage : Option String
  /-- `some c` iff the function called `sys.exit(c)`. -/
  exitCode : Option Nat
  /-- Vector-store calls, in order. -/
  storeCalls : List StoreCall
deriving DecidableEq

/-- The message printed when the resources directory holds no inputs. -/
def noFilesMessage : String :=
  "No files found in ./resources. Please put law documents in .txt format or Austrian law JSON file in there!"

/-- `Application.runSetup`.  `collectionName` is
`config.chroma_collection_name`; `uuidGen` as in the upsert embedding. -/
def runSetup (uuidGen : Nat → String) (collectionName : String)
    (fs : ResourcesDir) : SetupResult :=
  if fs.txtFiles.length = 0 && !(fs.bundle.isSome) then
    ⟨some noFilesMessage, none, []⟩
  else
    let gathered := gatherChunks fs
    if gathered.1.isEmpty then
      ⟨none, some 1, []⟩
    else
      ⟨none, none,
        StoreCall.getOrCreateCollection collectionName
          :: (upsert_documents_with_metadata uuidGen gathered.1
                (some gathered.2.1) (some gathered.2.2)).map StoreCall.upsert⟩

/-!  ## LLM post-processing (`Application.get_answer_from_llm`)  -/

/-- The characters of the opening reasoning tag. -/
def openTagL : List Char := "<think>".toList

/-- The characters of the closing reasoning tag. -/
def closeTagL : List Char := "</think>".toList

/-- Index of the first occurrence of `pat` in `s`
(the position where the regex engine first matches). -/
def firstIdxOf (pat : List Char) : List Char → Option Nat
  | [] => if pat.isPrefixOf ([] : List Char) then some 0 else none
  | c :: cs =>
    if pat.isPrefixOf (c :: cs) then some 0
    else (firstIdxOf pat cs).map (· + 1)

/-- `re.sub(r'<think>.*?</think>', '', s, flags=re.DOTALL)`: repeatedly
remove the span from the leftmost `<think>` to the nearest following
`</think>`; if either tag is missing, nothing more is removed. -/
def removeThinks (s : List Char) : List Char :=
  match h₁ : firstIdxOf openTagL s with
  | none => s
  | some i =>
    match firstIdxOf closeTagL (s.drop (i + 7)) with
    | none => s
    | some j => s.take i ++ removeThinks ((s.drop (i + 7)).drop (j + 8))
termination_by s.length
decreasing_by
  have hpos : 0 < s.length := by
    cases s with
    | nil => simp [firstIdxOf, openTagL] at h₁
    | cons c cs => simp
  simp only [List.length_drop]
  omega

/-- `cleaned_response.strip()` applied to the regex-cleaned raw output. -/
def clean_llm_response (s : String) : String :=
  pyStrip ((removeThinks s.toList).asString)

/-- The prompt template of `get_answer_from_llm` up to `{question}`. -/
def promptPre : String :=
  "You are an AI Legal Counsel with expertise in Austrian law and all areas of law. "
  ++ "You provide precise, accurate legal analysis and advice based on the information provided. "
  ++ "\n\nAs legal counsel, you should:"
  ++ "\n- Analyze legal questions methodically and thoroughly"
  ++ "\n- Consider relevant statutes, case law, and legal principles from the provided context"
  ++ "\n- Reference specific law numbers and sections when citing Austrian laws"
  ++ "\n- Clearly distinguish between established legal facts and your professional opinion"
  ++ "\n- Include appropriate disclaimers about not providing formal legal advice"
  ++ "\n- Use proper legal terminology and citation formats when referencing legal sources"
  ++ "\n- Identify potential legal risks and considerations"
  ++ "\n- When citing Austrian laws, reference the specific BGBl numbers if available"
  ++ "\n\nQuestion: "

/-- The prompt template between `{question}` and `{context}`. -/
def promptMid : String := "\n\nRelevant Information: "

/-- The prompt template after `{context}`. -/
def promptPost : String := "\n\nProvide your analysis and advice:"

/-- `llm_prompt = (…template…).format(question=question, context=context)`. -/
def llm_prompt (question context : String) : String :=
  promptPre ++ question ++ promptMid ++ context ++ promptPost

/-- `Application.get_answer_from_llm`: returns the answer together with the
list of prompts sent to `ollama.chat` (always exactly one). -/
def get_answer_from_llm (llm : String → String) (context question : String) :
    String × List String :=
  (clean_llm_response (llm (llm_prompt question context)), [llm_prompt question context])

/-!  ## Query-time pipeline (`Application.runQuestion`)  -/

/-- The result of `chroma_db_handler.query_documents` as `runQuestion`
consumes it: `documents` is `query_result['documents']` (one ranked list
per query text) and `metadatas` is `query_result.get('metadatas')`
(absent/None key ↦ `none`; a list entry may itself be `None`). -/
structure QueryResult where
  documents : List (List String)
  metadatas : Option (List (List (Option PyDict)))

/-- The fallback answer for an empty retrieval
("I couldn't find relevant information to answer your question."). -/
def fallbackAnswer : String :=
  "I couldn" ++ (Char.ofNat 39).toString
    ++ "t find relevant information to answer your question."

/-- The `law_sources` accumulation loop over `query_result['metadatas'][0]`. -/
def lawSources (metas : List (Option PyDict)) : List String :=
  metas.foldl
    (fun acc m =>
      match m with
      | none => acc
      | some d =>
        if pyTruthy (pyGet d "law_number") then
          acc ++ ["Law " ++ (pyGet d "law_number").getD "" ++ " - "
                    ++ (pyGet d "title").getD ""]
        else if pyTruthy (pyGet d "url") then
          acc ++ ["Source: " ++ (pyGet d "url").getD ""]
        else acc)
    []

/-- The `metadata_context` computation of `runQuestion`: empty unless
`query_result.get('metadatas')` and `query_result['metadatas'][0]` are
truthy and some law source was extracted. -/
def metadataContext (metadatas : Option (List (List (Option PyDict)))) : String :=
  match metadatas with
  | none => ""
  | some mss =>
    if mss.isEmpty then ""
    else if (mss.headD []).isEmpty then ""
    else
      let ls := lawSources (mss.headD [])
      if ls.isEmpty then ""
      else "\n\nSources: " ++ pyJoin "; " (pyDedup ls)

/-- `Application.runQuestion`, from the store's query result onward
(the query itself is delegated to the external store): returns the answer
and the prompts sent to the LLM.  `query_result['documents'][0]` is the
head of the `documents` field; the store returns one ranked list per
query text, so the field is nonempty in every reachable state. -/
def runQuestion (llm : String → String) (query_text : String)
    (query_result : QueryResult) : String × List String :=
  let docs0 := query_result.documents.headD []
  if docs0.isEmpty then (fallbackAnswer, [])
  else
    let context := pyJoin "\n\n" docs0
    let metadata_context := metadataContext query_result.metadatas
    get_answer_from_llm llm (context ++ metadata_context) query_text

/-!  ## `ChromaDBHandler.get_collection_stats`  -/

/-- The part of the store's `collection.peek(limit=…)` result that
`get_collection_stats` reads: `peek_result.get('metadatas')`. -/
structure PeekResult where
  metadatas : Option (List (Option PyDict))

/-- The outcome of `get_collection_stats`: the `except` branch returns
`{'error': str(e)}`, the normal branch a dict with the four fixed keys. -/
inductive StatsResult where
  | err (message : String)
  | ok (total_documents : Nat) (document_types : List (String × Nat))
       (unique_laws : Nat) (sample_law_numbers : List String)
deriving DecidableEq

/-- `meta.get('chunk_type', meta.get('type', 'unknown'))`. -/
def docTypeOf (d : PyDict) : String :=
  match pyGet d "chunk_type" with
  | some v => v
  | none => (pyGet d "type").getD "unknown"

/-- `doc_types[doc_type] = doc_types.get(doc_type, 0) + 1` on a dict in
insertion order. -/
def bumpCount (m : List (String × Nat)) (k : String) : List (String × Nat) :=
  if m.any (fun p => p.1 == k) then
    m.map (fun p => if p.1 == k then (p.1, p.2 + 1) else p)
  else m ++ [(k, 1)]

/-- `law_numbers.add(meta['law_number'])` on a set modelled in
first-insertion order. -/
def setAdd (s : List String) (v : String) : List String :=
  if v ∈ s then s else s ++ [v]

/-- The metadata-analysis loop of `get_collection_stats`: skips falsy
entries (`if meta:` — `None` or an empty dict), counts document types and
collects distinct law numbers. -/
def statsFold (metas : List (Option PyDict)) : List (String × Nat) × List String :=
  metas.foldl
    (fun acc m =>
      match m with
      | none => acc
      | some d =>
        if d.isEmpty then acc
        else
          let acc1 := (bumpCount acc.1 (docTypeOf d), acc.2)
          if pyTruthy (pyGet d "law_number") then
            (acc1.1, setAdd acc1.2 ((pyGet d "law_number").getD ""))
          else acc1)
    ([], [])

/-- `document_types`/`law_numbers` of a peek result, after the
`if peek_result.get('metadatas'):` truthiness guard. -/
def statsOfPeek (pr : PeekResult) : List (String × Nat) × List String :=
  match pr.metadatas with
  | none => ([], [])
  | some ms => if ms.isEmpty then ([], []) else statsFold ms

/-- `ChromaDBHandler.get_collection_stats`.  The store is a black box:
`count` is the outcome of `collection.count()` and `peekFn limit` the
outcome of `collection.peek(limit=limit)`; a raised exception is
`Except.error` with its message, and the surrounding `try/except` turns
either failure into the `{'error': …}` dict. -/
def get_collection_stats (count : Except String Nat)
    (peekFn : Nat → Except String PeekResult) : StatsResult :=
  match count with
  | Except.error e => StatsResult.err e
  | Except.ok c =>
    match peekFn 5 with
    | Except.error e => StatsResult.err e
    | Except.ok pr =>
      let st := statsOfPeek pr
      StatsResult.ok c st.1 st.2.length (st.2.take 5)

/-!  ## Auxiliary definitions for the statements  -/

/-- `pat` occurs as a contiguous substring of `s`. -/
def containsStr (s pat : String) : Bool :=
  (firstIdxOf pat.toList s.toList).isSome

/-- `s` is free of the `<` character (so it can contain no reasoning tag,
opening or closing, and no fragment of one). -/
def ltFree (s : String) : Bool :=
  s.toList.all (fun c => !(c == '<'))

/-- A raw model output shaped as clean text interleaved with paired
reasoning sections: `t₀<think>r₀</think>t₁<think>r₁</think>…tail`. -/
def renderThinks : List (String × String) → String → String
  | [], tail => tail
  | (t, r) :: rest, tail => t ++ "<think>" ++ r ++ "</think>" ++ renderThinks rest tail

/-- Character-level counterpart of `renderThinks`. -/
def renderThinksL : List (List Char × List Char) → List Char → List Char
  | [], tail => tail
  | (t, r) :: rest, tail => t ++ openTagL ++ r ++ closeTagL ++ renderThinksL rest tail

/-- Concatenation of a list of strings. -/
def concatAll (l : List String) : String :=
  l.foldr (fun a b => a ++ b) ""

/-- A fixed deterministic stand-in for the `uuid.uuid4()` draw sequence,
used to instantiate theorems at concrete inputs. -/
def uuidGen0 : Nat → String := fun i => "uuid-" ++ toString i

/-- A constant black-box model used to instantiate theorems. -/
def constLLM : String → String := fun _ => "The statute applies."

/-- Concrete clean/reasoning segments of a sample raw model output. -/
def sampleBlocks : List (String × String) :=
  [("Answer: yes. ", " secret chain of thought ")]

/-- Concrete tail of the sample raw model output. -/
def sampleTail : String := " See BGBl 1."

/-- A black-box model that always returns the sample raw output with a
reasoning section. -/
def thinkLLM : String → String := fun _ => renderThinks sampleBlocks sampleTail

/-- A concrete peeked metadata sample for instantiating the stats theorem. -/
def samplePeek : PeekResult :=
  PeekResult.mk (some [some [("type", "paragraph"), ("law_number", "BGBl 10")],
                       none,
                       some [("chunk_type", "section"), ("law_number", "BGBl 10")]])

/-- A store whose `peek` succeeds with `samplePeek` at every limit. -/
def peekOk0 : Nat → Except String PeekResult := fun _ => Except.ok samplePeek

/-!  ## Theorems  -/

theorem load_text_file_eq_map_filter (content : String) :
    load_text_file content
      = ((content.splitOn "\n\n").map pyStrip).filter (fun p => !p.isEmpty) := by
  unfold load_text_file
  induction content.splitOn "\n\n" with
  | nil => rfl
  | cons p ps ih =>
    by_cases h : (pyStrip p).isEmpty
    · simp [List.filterMap, List.filter, h, ih]
    · simp only [List.filterMap_cons, List.map_cons, List.filter_cons, h]
      simp only [Bool.not_false, if_true, ih]
      simp [h]

/-- C1: if the first query's document list in the retrieval result is
empty, `runQuestion` returns exactly the fixed fallback string and sends
no prompt to the language model. -/
theorem C1_empty_retrieval_short_circuit (llm : String → String)
    (question : String) (query_result : QueryResult)
    (rest : List (List String))
    (h : query_result.documents = [] :: rest) :
    runQuestion llm question query_result = (fallbackAnswer, []) := by
  simp [runQuestion, h]

theorem C1_witness :
    (QueryResult.mk ([] :: []) none).documents = [] :: []
    ∧ runQuestion constLLM "Is subletting legal in Austria?" (QueryResult.mk [[]] none)
        = (fallbackAnswer, []) :=
  ⟨rfl, C1_empty_retrieval_short_circuit constLLM "Is subletting legal in Austria?" _ [] rfl⟩

/-- C8: with zero `.txt` files and no bundle file, `runSetup` prints the
documented user message and returns without any vector-store call. -/
theorem C8_no_inputs_no_store_calls (uuidGen : Nat → String)
    (collectionName : String) (fs : ResourcesDir)
    (h1 : fs.txtFiles = []) (h2 : fs.bundle = none) :
    runSetup uuidGen collectionName fs
      = SetupResult.mk (some noFilesMessage) none [] := by
  simp [runSetup, h1, h2]

theorem C8_witness :
    (ResourcesDir.mk [] none).txtFiles = []
    ∧ (ResourcesDir.mk [] none).bundle = none
    ∧ runSetup uuidGen0 "austrian_legal_documents" (ResourcesDir.mk [] none)
        = SetupResult.mk (some noFilesMessage) none [] :=
  ⟨rfl, rfl, C8_no_inputs_no_store_calls uuidGen0 "austrian_legal_documents" _ rfl rfl⟩

/-- C9: an empty documents list makes `upsert_documents_with_metadata` a
no-op — no `collection.upsert` call is issued, whatever the `metadatas`
and `ids` arguments are. -/
theorem C9_empty_documents_noop (uuidGen : Nat → String)
    (metadatas : Option (List PyDict)) (ids : Option (List String)) :
    upsert_documents_with_metadata uuidGen [] metadatas ids = [] := by
  simp [upsert_documents_with_metadata]

/-- C2 counterexample: with zero `.txt` files and no bundle file — a state
with zero resulting chunks — `runSetup` does not exit; it prints the user
message and returns with exit code `none`. -/
theorem C2_counterexample :
    runSetup uuidGen0 "austrian_legal_documents" (ResourcesDir.mk [] none)
      = SetupResult.mk (some noFilesMessage) none []
    ∧ (runSetup uuidGen0 "austrian_legal_documents" (ResourcesDir.mk [] none)).exitCode
        ≠ some 1 :=
  ⟨rfl, by decide⟩

/-- C2 (amended): if some input source is present (a `.txt` file listing or
an existing bundle file) but zero chunks result, `runSetup` exits the
process with code 1 and touches no store; the no-inputs branch instead
returns normally after printing the user message. -/
theorem C2_zero_chunks_exit (uuidGen : Nat → String) (collectionName : String)
    (fs : ResourcesDir)
    (hin : ¬ (fs.txtFiles = [] ∧ fs.bundle = none))
    (hz : (gatherChunks fs).1 = []) :
    runSetup uuidGen collectionName fs = SetupResult.mk none (some 1) [] := by
  unfold runSetup
  have hcond : (fs.txtFiles.length = 0 && !fs.bundle.isSome) = false := by
    rcases fs with ⟨tf, b⟩
    simp only [not_and] at hin
    cases tf with
    | nil =>
      cases b with
      | none => exact absurd rfl (hin rfl)
      | some d => simp
    | cons x xs => simp
  rw [hcond]
  simp [hz]

theorem C2_zero_chunks_exit_witness :
    ¬ ((ResourcesDir.mk [none] none).txtFiles = []
        ∧ (ResourcesDir.mk [none] none).bundle = none)
    ∧ (gatherChunks (ResourcesDir.mk [none] none)).1 = []
    ∧ runSetup uuidGen0 "austrian_legal_documents" (ResourcesDir.mk [none] none)
        = SetupResult.mk none (some 1) [] :=
  ⟨by simp, rfl,
   C2_zero_chunks_exit uuidGen0 "austrian_legal_documents" _ (by simp) rfl⟩

/-- C10: `get_collection_stats` never propagates a store failure — a
failing `count` or `peek` yields the `{'error': …}` dict — and on success
it returns the dict with the four fixed keys, `sample_law_numbers` being
at most 5 law numbers drawn from the peeked sample requested with
`limit=5`. -/
theorem C10_stats_total (count : Except String Nat)
    (peekFn : Nat → Except String PeekResult) :
    (∀ e, count = Except.error e →
        get_collection_stats count peekFn = StatsResult.err e)
    ∧ (∀ c e, count = Except.ok c → peekFn 5 = Except.error e →
        get_collection_stats count peekFn = StatsResult.err e)
    ∧ (∀ c pr, count = Except.ok c → peekFn 5 = Except.ok pr →
        get_collection_stats count peekFn
          = StatsResult.ok c (statsOfPeek pr).1 (statsOfPeek pr).2.length
              ((statsOfPeek pr).2.take 5)
        ∧ ((statsOfPeek pr).2.take 5).length ≤ 5) := by
  refine ⟨?_, ?_, ?_⟩
  · intro e he
    simp [get_collection_stats, he]
  · intro c e hc hp
    simp [get_collection_stats, hc, hp]
  · intro c pr hc hp
    refine ⟨by simp [get_collection_stats, hc, hp], ?_⟩
    simp [List.length_take]

theorem C10_witness :
    get_collection_stats (Except.error "store unavailable") peekOk0
      = StatsResult.err "store unavailable"
    ∧ (get_collection_stats (Except.ok 2) peekOk0
        = StatsResult.ok 2 (statsOfPeek samplePeek).1
            (statsOfPeek samplePeek).2.length ((statsOfPeek samplePeek).2.take 5)
      ∧ ((statsOfPeek samplePeek).2.take 5).length ≤ 5) :=
  ⟨(C10_stats_total (Except.error "store unavailable") peekOk0).1 "store unavailable" rfl,
   (C10_stats_total (Except.ok 2) peekOk0).2.2 2 samplePeek rfl rfl⟩

theorem accTextFiles_foldl (results : List (List String))
    (ve : List String) (ms : List PyDict) (ids : List String) :
    results.foldl
      (fun acc fileResults =>
        (acc.1 ++ fileResults,
         acc.2.1 ++ fileResults.map (fun _ => textFileMeta),
         acc.2.2 ++ (List.range' acc.2.2.length fileResults.length).map mkTxtId))
      (ve, ms, ids)
      = (ve ++ results.flatten,
         ms ++ results.flatten.map (fun _ => textFileMeta),
         ids ++ (List.range' ids.length results.flatten.length).map mkTxtId) := by
  induction results generalizing ve ms ids with
  | nil => simp
  | cons r rs ih =>
    simp only [List.foldl_cons]
    rw [ih]
    simp only [Prod.mk.injEq]
    refine ⟨by simp, by simp, ?_⟩
    have hl : (ids ++ (List.range' ids.length r.length).map mkTxtId).length
        = ids.length + r.length := by simp
    rw [hl, List.append_assoc, ← List.map_append]
    have hr := List.range'_append ids.length r.length rs.flatten.length 1
    simp only [one_mul] at hr
    rw [hr]
    have hlen : (r :: rs).flatten.length = rs.flatten.length + r.length := by
      simp [Nat.add_comm]
    rw [hlen]

theorem accTextFiles_eq (results : List (List String)) :
    accTextFiles results
      = (results.flatten,
         results.flatten.map (fun _ => textFileMeta),
         (List.range results.flatten.length).map mkTxtId) := by
  unfold accTextFiles
  rw [accTextFiles_foldl]
  simp [List.range_eq_range']

/-- C4: the chunks gathered from the text files keep file-list order —
`executor.map` yields results in input order, so the entries are exactly
the per-file paragraph lists flattened in file-list order — and the i-th
surviving paragraph overall receives the sequential id `txt_i`. -/
theorem C4_order_and_sequential_ids (files : List (Option String)) :
    gatherChunks (ResourcesDir.mk files none)
      = ((files.map load_file).flatten,
         (files.map load_file).flatten.map (fun _ => textFileMeta),
         (List.range (files.map load_file).flatten.length).map mkTxtId) := by
  unfold gatherChunks
  cases files with
  | nil => simp
  | cons f fsl =>
    simp only [List.isEmpty_cons, Bool.false_eq_true, if_false]
    exact accTextFiles_eq _

/-- C3: `_load_text_file` returns exactly the double-newline-split,
whitespace-stripped, nonempty segments of the content; an unreadable file
contributes zero chunks; and the total chunk count over a set of files is
the sum of the per-file paragraph counts, invariant under permuting the
file processing order. -/
theorem C3_paragraph_splitting (content : String)
    (files files₂ : List (Option String)) (hperm : files.Perm files₂) :
    load_text_file content
      = ((content.splitOn "\n\n").map pyStrip).filter (fun p => !p.isEmpty)
    ∧ load_file none = []
    ∧ ((files.map load_file).flatten).length
        = (files.map (fun f => (load_file f).length)).sum
    ∧ ((files.map load_file).flatten).length
        = ((files₂.map load_file).flatten).length := by
  refine ⟨load_text_file_eq_map_filter content, rfl, ?_, ?_⟩
  · rw [List.length_flatten, List.map_map]
    rfl
  · rw [List.length_flatten, List.length_flatten]
    exact List.Perm.sum_eq ((hperm.map load_file).map List.length)

theorem C3_witness :
    ([some "First law.\n\n  \n\nSecond law.", none] : List (Option String)).Perm
        [none, some "First law.\n\n  \n\nSecond law."]
    ∧ (load_text_file "First law.\n\n  \n\nSecond law."
        = ((("First law.\n\n  \n\nSecond law.").splitOn "\n\n").map pyStrip).filter
            (fun p => !p.isEmpty)
      ∧ load_file none = []
      ∧ ((([some "First law.\n\n  \n\nSecond law.", none] : List (Option String)).map
            load_file).flatten).length
          = (([some "First law.\n\n  \n\nSecond law.", none] : List (Option String)).map
              (fun f => (load_file f).length)).sum
      ∧ ((([some "First law.\n\n  \n\nSecond law.", none] : List (Option String)).map
            load_file).flatten).length
          = ((([none, some "First law.\n\n  \n\nSecond law."] : List (Option String)).map
              load_file).flatten).length) :=
  ⟨List.Perm.swap none (some "First law.\n\n  \n\nSecond law.") [],
   C3_paragraph_splitting "First law.\n\n  \n\nSecond law." _ _
     (List.Perm.swap none (some "First law.\n\n  \n\nSecond law.") [])⟩

theorem batchLoop_spec (n : Nat) :
    ∀ (d : List String) (m : List PyDict) (i : List String),
      d.length ≤ n → m.length = d.length → i.length = d.length →
      ((batchLoop d m i).map Batch.documents).flatten = d
      ∧ ((batchLoop d m i).map Batch.metadatas).flatten = m
      ∧ ((batchLoop d m i).map Batch.ids).flatten = i
      ∧ ∀ b ∈ batchLoop d m i,
          b.documents.length ≤ 1000 ∧ b.metadatas.length ≤ 1000
            ∧ b.ids.length ≤ 1000 := by
  induction n with
  | zero =>
    intro d m i hd hm hi
    have hd0 : d = [] := List.length_eq_zero.mp (Nat.le_zero.mp hd)
    subst hd0
    have hm0 : m = [] := List.length_eq_zero.mp hm
    have hi0 : i = [] := List.length_eq_zero.mp hi
    subst hm0; subst hi0
    rw [batchLoop]
    simp
  | succ n ih =>
    intro d m i hd hm hi
    by_cases hde : d.isEmpty
    · have hd0 : d = [] := List.isEmpty_iff.mp hde
      subst hd0
      have hm0 : m = [] := List.length_eq_zero.mp hm
      have hi0 : i = [] := List.length_eq_zero.mp hi
      subst hm0; subst hi0
      rw [batchLoop]
      simp
    · have hdne : d ≠ [] := by simpa [List.isEmpty_iff] using hde
      have hdpos : 0 < d.length := List.length_pos.mpr hdne
      obtain ⟨ih1, ih2, ih3, ih4⟩ :=
        ih (d.drop 1000) (m.drop 1000) (i.drop 1000)
          (by simp only [List.length_drop]; omega)
          (by simp only [List.length_drop]; omega)
          (by simp only [List.length_drop]; omega)
      rw [batchLoop]
      simp only [hde, Bool.false_eq_true, if_false, List.map_cons, List.flatten_cons]
      refine ⟨?_, ?_, ?_, ?_⟩
      · rw [ih1]; exact List.take_append_drop 1000 d
      · rw [ih2]; exact List.take_append_drop 1000 m
      · rw [ih3]; exact List.take_append_drop 1000 i
      · intro b hb
        rcases List.mem_cons.mp hb with hb | hb
        · subst hb
          refine ⟨?_, ?_, ?_⟩ <;> simp [List.length_take]
        · exact ih4 b hb

/-- C5: with provided (truthy) metadatas and ids, the upsert first
truncates all three lists to the shortest length, then issues
`collection.upsert` calls of at most 1000 elements each whose
concatenation — documents, metadatas and ids alike — is exactly the
truncated input: batching is transparent. -/
theorem C5_batching_transparent (uuidGen : Nat → String)
    (documents : List String) (metadatas : List PyDict) (ids : List String)
    (hm : metadatas ≠ []) (hi : ids ≠ []) :
    (((upsert_documents_with_metadata uuidGen documents (some metadatas)
          (some ids)).map Batch.documents).flatten
        = documents.take (min (min documents.length metadatas.length) ids.length))
    ∧ (((upsert_documents_with_metadata uuidGen documents (some metadatas)
          (some ids)).map Batch.metadatas).flatten
        = metadatas.take (min (min documents.length metadatas.length) ids.length))
    ∧ (((upsert_documents_with_metadata uuidGen documents (some metadatas)
          (some ids)).map Batch.ids).flatten
        = ids.take (min (min documents.length metadatas.length) ids.length))
    ∧ ∀ b ∈ upsert_documents_with_metadata uuidGen documents (some metadatas)
          (some ids),
        b.documents.length ≤ 1000 ∧ b.metadatas.length ≤ 1000
          ∧ b.ids.length ≤ 1000 := by
  have hme : metadatas.isEmpty = false := by simpa [List.isEmpty_iff] using hm
  have hie : ids.isEmpty = false := by simpa [List.isEmpty_iff] using hi
  by_cases hde : documents.isEmpty
  · have hd0 : documents = [] := List.isEmpty_iff.mp hde
    subst hd0
    simp [upsert_documents_with_metadata]
  · unfold upsert_documents_with_metadata
    simp only [hde, Bool.false_eq_true, if_false, hme, hie]
    have hlen1 : (documents.take
        (min (min documents.length metadatas.length) ids.length)).length
        = min (min documents.length metadatas.length) ids.length := by
      simp only [List.length_take]
      omega
    have hlen2 : (metadatas.take
        (min (min documents.length metadatas.length) ids.length)).length
        = min (min documents.length metadatas.length) ids.length := by
      simp only [List.length_take]
      omega
    have hlen3 : (ids.take
        (min (min documents.length metadatas.length) ids.length)).length
        = min (min documents.length metadatas.length) ids.length := by
      simp only [List.length_take]
      omega
    exact batchLoop_spec
      (documents.take (min (min documents.length metadatas.length) ids.length)).length
      _ _ _ le_rfl (by rw [hlen2, hlen1]) (by rw [hlen3, hlen1])

theorem C5_witness :
    ([[("source", "text_file")]] : List PyDict) ≠ []
    ∧ (["txt_0", "txt_1"] : List String) ≠ []
    ∧ ((((upsert_documents_with_metadata uuidGen0 ["Doc A.", "Doc B."]
            (some [[("source", "text_file")]]) (some ["txt_0", "txt_1"])).map
              Batch.documents).flatten
          = (["Doc A.", "Doc B."] : List String).take
              (min (min 2 1) 2))
        ∧ (((upsert_documents_with_metadata uuidGen0 ["Doc A.", "Doc B."]
            (some [[("source", "text_file")]]) (some ["txt_0", "txt_1"])).map
              Batch.metadatas).flatten
          = ([[("source", "text_file")]] : List PyDict).take (min (min 2 1) 2))) := by
  refine ⟨by simp, by simp, ?_, ?_⟩
  · have h := (C5_batching_transparent uuidGen0 ["Doc A.", "Doc B."]
      [[("source", "text_file")]] ["txt_0", "txt_1"] (by simp) (by simp)).1
    simpa using h
  · have h := (C5_batching_transparent uuidGen0 ["Doc A.", "Doc B."]
      [[("source", "text_file")]] ["txt_0", "txt_1"] (by simp) (by simp)).2.1
    simpa using h

theorem string_toList_append (a b : String) :
    (a ++ b).toList = a.toList ++ b.toList := rfl

theorem asString_toList (s : String) : s.toList.asString = s := rfl

theorem firstIdxOf_of_isPrefixOf (pat l : List Char)
    (h : pat.isPrefixOf l = true) : firstIdxOf pat l = some 0 := by
  cases l <;> simp [firstIdxOf, h]

theorem firstIdxOf_none_of_ltFree (p' s : List Char)
    (hs : ∀ c ∈ s, c ≠ '<') : firstIdxOf ('<' :: p') s = none := by
  induction s with
  | nil => simp [firstIdxOf, List.isPrefixOf]
  | cons a s ih =>
    have ha : a ≠ '<' := hs a (List.mem_cons_self a s)
    have hba : ('<' == a) = false := beq_eq_false_iff_ne.mpr (Ne.symm ha)
    have hpre : ('<' :: p').isPrefixOf (a :: s) = false := by
      simp [List.isPrefixOf, hba]
    simp [firstIdxOf, hpre, ih (fun c hc => hs c (List.mem_cons_of_mem a hc))]

theorem firstIdxOf_at_marker (p' a b : List Char)
    (ha : ∀ c ∈ a, c ≠ '<') :
    firstIdxOf ('<' :: p') (a ++ ('<' :: p') ++ b) = some a.length := by
  induction a with
  | nil =>
    simp only [List.nil_append, List.length_nil]
    apply firstIdxOf_of_isPrefixOf
    exact List.isPrefixOf_iff_prefix.mpr (List.prefix_append _ _)
  | cons x a ih =>
    have hx : x ≠ '<' := ha x (List.mem_cons_self x a)
    have hba : ('<' == x) = false := beq_eq_false_iff_ne.mpr (Ne.symm hx)
    have hpre :
        ('<' :: p').isPrefixOf (x :: (a ++ ('<' :: p') ++ b)) = false := by
      simp [List.isPrefixOf, hba]
    have ih' := ih (fun c hc => ha c (List.mem_cons_of_mem x hc))
    rw [List.cons_append, List.cons_append]
    rw [show firstIdxOf ('<' :: p') (x :: (a ++ ('<' :: p') ++ b))
          = (firstIdxOf ('<' :: p') (a ++ ('<' :: p') ++ b)).map (· + 1) by
        simp only [firstIdxOf, hpre]
        simp]
    rw [ih']
    simp

theorem removeThinks_renderL (blocks : List (List Char × List Char)) :
    ∀ (tail : List Char),
      (∀ p ∈ blocks, (∀ c ∈ p.1, c ≠ '<') ∧ (∀ c ∈ p.2, c ≠ '<')) →
      (∀ c ∈ tail, c ≠ '<') →
      removeThinks (renderThinksL blocks tail)
        = (blocks.map Prod.fst).flatten ++ tail := by
  induction blocks with
  | nil =>
    intro tail _ ht
    have hnone : firstIdxOf openTagL tail = none := by
      have ho : openTagL = '<' :: "think>".toList := rfl
      rw [ho]
      exact firstIdxOf_none_of_ltFree _ _ ht
    simp only [renderThinksL, List.map_nil, List.flatten_nil, List.nil_append]
    rw [removeThinks]
    split
    · rfl
    · rename_i i heq
      rw [hnone] at heq
      cases heq
  | cons p rest ih =>
    intro tail hb ht
    obtain ⟨t, r⟩ := p
    have htlt : ∀ c ∈ t, c ≠ '<' := (hb (t, r) (List.mem_cons_self _ _)).1
    have hrlt : ∀ c ∈ r, c ≠ '<' := (hb (t, r) (List.mem_cons_self _ _)).2
    have hshape : renderThinksL ((t, r) :: rest) tail
        = t ++ openTagL ++ (r ++ closeTagL ++ renderThinksL rest tail) := by
      simp [renderThinksL, List.append_assoc]
    have h1 : firstIdxOf openTagL (renderThinksL ((t, r) :: rest) tail)
        = some t.length := by
      rw [hshape]
      have ho : openTagL = '<' :: "think>".toList := rfl
      rw [ho]
      exact firstIdxOf_at_marker _ _ _ htlt
    have hdrop1 : (renderThinksL ((t, r) :: rest) tail).drop (t.length + 7)
        = r ++ closeTagL ++ renderThinksL rest tail := by
      rw [hshape]
      refine List.drop_left' ?_
      have ho : openTagL.length = 7 := rfl
      simp [List.length_append, ho]
    have h2 : firstIdxOf closeTagL (r ++ closeTagL ++ renderThinksL rest tail)
        = some r.length := by
      have hc : closeTagL = '<' :: "/think>".toList := rfl
      rw [hc]
      exact firstIdxOf_at_marker _ _ _ hrlt
    have hdrop2 : (r ++ closeTagL ++ renderThinksL rest tail).drop (r.length + 8)
        = renderThinksL rest tail := by
      refine List.drop_left' ?_
      have hc : closeTagL.length = 8 := rfl
      simp [List.length_append, hc]
    have htake : (renderThinksL ((t, r) :: rest) tail).take t.length = t := by
      rw [hshape, List.append_assoc]
      exact List.take_left' rfl
    rw [removeThinks]
    split
    · rename_i heq
      rw [h1] at heq
      cases heq
    · rename_i i heq
      rw [h1] at heq
      injection heq with hi
      subst hi
      split
      · rename_i heq2
        rw [hdrop1, h2] at heq2
        cases heq2
      · rename_i j heq2
        rw [hdrop1, h2] at heq2
        injection heq2 with hj
        subst hj
        rw [htake, hdrop1, hdrop2,
          ih tail (fun q hq => hb q (List.mem_cons_of_mem _ hq)) ht]
        simp [List.append_assoc]

theorem renderThinks_toList (blocks : List (String × String)) (tail : String) :
    (renderThinks blocks tail).toList
      = renderThinksL (blocks.map (fun p => (p.1.toList, p.2.toList)))
          tail.toList := by
  induction blocks with
  | nil => rfl
  | cons p rest ih =>
    obtain ⟨t, r⟩ := p
    have ih2 := ih
    simp only [String.toList] at ih2
    simp [renderThinks, renderThinksL, string_toList_append, ih2,
      openTagL, closeTagL, String.toList]

theorem concatAll_toList (l : List String) :
    (concatAll l).toList = (l.map String.toList).flatten := by
  induction l with
  | nil => rfl
  | cons x xs ih =>
    rw [show concatAll (x :: xs) = x ++ concatAll xs from rfl,
      string_toList_append, ih]
    simp

/-- C6: for a raw model output consisting of clean text interleaved with
paired `<think>…</think>` reasoning sections (clean text and reasoning
text both free of the tag character), the returned answer is exactly the
concatenation of the clean segments with every reasoning section — tags
and enclosed text — removed, stripped of leading and trailing whitespace;
no reasoning text reaches the answer. -/
theorem C6_reasoning_sections_stripped (llm : String → String)
    (context question : String) (blocks : List (String × String)) (tail : String)
    (hb : ∀ p ∈ blocks, ltFree p.1 = true ∧ ltFree p.2 = true)
    (ht : ltFree tail = true)
    (hllm : llm (llm_prompt question context) = renderThinks blocks tail) :
    (get_answer_from_llm llm context question).1
      = pyStrip (concatAll (blocks.map Prod.fst) ++ tail) := by
  have hlt : ∀ (s : String), ltFree s = true → ∀ c ∈ s.toList, c ≠ '<' := by
    intro s hs c hc
    have := List.all_eq_true.mp hs c hc
    simpa using this
  unfold get_answer_from_llm clean_llm_response
  simp only [hllm]
  rw [renderThinks_toList]
  rw [removeThinks_renderL _ _ ?hb ?ht]
  case hb =>
    intro q hq
    rw [List.mem_map] at hq
    obtain ⟨p, hp, hpq⟩ := hq
    subst hpq
    exact ⟨hlt p.1 (hb p hp).1, hlt p.2 (hb p hp).2⟩
  case ht => exact hlt tail ht
  have hlist :
      ((blocks.map (fun p => (p.1.toList, p.2.toList))).map Prod.fst).flatten
          ++ tail.toList
        = (concatAll (blocks.map Prod.fst) ++ tail).toList := by
    rw [string_toList_append, concatAll_toList, List.map_map, List.map_map]
    rfl
  rw [hlist, asString_toList]

theorem C6_witness :
    (∀ p ∈ sampleBlocks, ltFree p.1 = true ∧ ltFree p.2 = true)
    ∧ ltFree sampleTail = true
    ∧ thinkLLM (llm_prompt "Is a verbal lease valid?" "A lease may be verbal.")
        = renderThinks sampleBlocks sampleTail
    ∧ (get_answer_from_llm thinkLLM "A lease may be verbal."
          "Is a verbal lease valid?").1
        = pyStrip (concatAll (sampleBlocks.map Prod.fst) ++ sampleTail) :=
  ⟨by decide, by decide, rfl,
   C6_reasoning_sections_stripped thinkLLM "A lease may be verbal."
     "Is a verbal lease valid?" sampleBlocks sampleTail (by decide) (by decide) rfl⟩

theorem firstIdxOf_isSome_of_append (pat t : List Char) :
    ∀ s : List Char, (firstIdxOf pat (s ++ pat ++ t)).isSome = true := by
  intro s
  induction s with
  | nil =>
    have hpre : pat.isPrefixOf (pat ++ t) = true :=
      List.isPrefixOf_iff_prefix.mpr (List.prefix_append _ _)
    rw [List.nil_append, firstIdxOf_of_isPrefixOf pat _ hpre]
    rfl
  | cons c cs ih =>
    rw [List.cons_append, List.cons_append]
    by_cases hp : pat.isPrefixOf (c :: (cs ++ pat ++ t)) = true
    · rw [firstIdxOf_of_isPrefixOf _ _ hp]
      rfl
    · have hstep : firstIdxOf pat (c :: (cs ++ pat ++ t))
          = (firstIdxOf pat (cs ++ pat ++ t)).map (· + 1) := by
        simp only [firstIdxOf]
        rw [if_neg hp]
      rw [hstep]
      obtain ⟨v, hv⟩ := Option.isSome_iff_exists.mp ih
      rw [hv]
      rfl

theorem containsStr_of_infix (s pat : String)
    (h : pat.toList <:+: s.toList) : containsStr s pat = true := by
  obtain ⟨u, v, huv⟩ := h
  unfold containsStr
  rw [← huv]
  exact firstIdxOf_isSome_of_append pat.toList v u

theorem infix_pyJoin (sep d : String) :
    ∀ l : List String, d ∈ l → d.toList <:+: (pyJoin sep l).toList := by
  intro l
  induction l with
  | nil => intro h; cases h
  | cons x xs ih =>
    intro hd
    cases xs with
    | nil =>
      have hx : d = x := by simpa using hd
      subst hx
      exact List.infix_refl _
    | cons y ys =>
      rcases List.mem_cons.mp hd with rfl | hmem
      · rw [show pyJoin sep (d :: y :: ys) = d ++ sep ++ pyJoin sep (y :: ys)
            from rfl,
          string_toList_append, string_toList_append, List.append_assoc]
        exact (List.prefix_append _ _).isInfix
      · have hi := ih hmem
        rw [show pyJoin sep (x :: y :: ys) = x ++ sep ++ pyJoin sep (y :: ys)
            from rfl,
          string_toList_append, string_toList_append]
        exact hi.trans (List.suffix_append _ _).isInfix

/-- C7: on a non-empty retrieval, `runQuestion` sends exactly one prompt to
the model; that prompt embeds the context — the retrieved chunk texts
joined in ranking order by a blank line — followed by the metadata
citation suffix; the prompt contains the literal question string, the full
blank-line-joined context and every retrieved chunk text; and the cleaned
model output is returned unmodified. -/
theorem C7_context_prompt_single_call (llm : String → String)
    (question : String) (query_result : QueryResult)
    (docs0 : List String) (rest : List (List String))
    (hdocs : query_result.documents = docs0 :: rest) (hne : docs0 ≠ []) :
    runQuestion llm question query_result
      = (clean_llm_response (llm (llm_prompt question
            (pyJoin "\n\n" docs0 ++ metadataContext query_result.metadatas))),
         [llm_prompt question
            (pyJoin "\n\n" docs0 ++ metadataContext query_result.metadatas)])
    ∧ containsStr (llm_prompt question
        (pyJoin "\n\n" docs0 ++ metadataContext query_result.metadatas))
        question = true
    ∧ containsStr (llm_prompt question
        (pyJoin "\n\n" docs0 ++ metadataContext query_result.metadatas))
        (pyJoin "\n\n" docs0) = true
    ∧ ∀ d ∈ docs0,
        containsStr (llm_prompt question
          (pyJoin "\n\n" docs0 ++ metadataContext query_result.metadatas))
          d = true := by
  have hne' : docs0.isEmpty = false := by
    simpa [List.isEmpty_iff] using hne
  have hjoin : (pyJoin "\n\n" docs0).toList
      <:+: (llm_prompt question
        (pyJoin "\n\n" docs0 ++ metadataContext query_result.metadatas)).toList := by
    refine ⟨promptPre.toList ++ question.toList ++ promptMid.toList,
      (metadataContext query_result.metadatas).toList ++ promptPost.toList, ?_⟩
    simp [llm_prompt, string_toList_append, List.append_assoc]
  refine ⟨?_, ?_, ?_, ?_⟩
  · simp [runQuestion, hdocs, hne', get_answer_from_llm]
  · apply containsStr_of_infix
    refine ⟨promptPre.toList,
      promptMid.toList
        ++ ((pyJoin "\n\n" docs0 ++ metadataContext query_result.metadatas).toList
              ++ promptPost.toList), ?_⟩
    simp [llm_prompt, string_toList_append, List.append_assoc]
  · exact containsStr_of_infix _ _ hjoin
  · intro d hd
    exact containsStr_of_infix _ _ ((infix_pyJoin "\n\n" d docs0 hd).trans hjoin)

theorem C7_witness :
    (["A legal paragraph.", "Another paragraph."] : List String) ≠ []
    ∧ runQuestion constLLM "Which Austrian law governs leases?"
        (QueryResult.mk [["A legal paragraph.", "Another paragraph."]] none)
        = (clean_llm_response (constLLM
              (llm_prompt "Which Austrian law governs leases?"
                (pyJoin "\n\n" ["A legal paragraph.", "Another paragraph."]
                  ++ metadataContext none))),
           [llm_prompt "Which Austrian law governs leases?"
              (pyJoin "\n\n" ["A legal paragraph.", "Another paragraph."]
                ++ metadataContext none)])
    ∧ containsStr (llm_prompt "Which Austrian law governs leases?"
          (pyJoin "\n\n" ["A legal paragraph.", "Another paragraph."]
            ++ metadataContext none))
        "A legal paragraph." = true :=
  ⟨by decide,
   (C7_context_prompt_single_call constLLM "Which Austrian law governs leases?"
      (QueryResult.mk [["A legal paragraph.", "Another paragraph."]] none)
      ["A legal paragraph.", "Another paragraph."] [] rfl (by decide)).1,
   (C7_context_prompt_single_call constLLM "Which Austrian law governs leases?"
      (QueryResult.mk [["A legal paragraph.", "Another paragraph."]] none)
      ["A legal paragraph.", "Another paragraph."] [] rfl (by decide)).2.2.2
     "A legal paragraph." (by simp)⟩
